import Mathlib

/-!
Shallow embedding of `texar/modules/classifiers/bert_classifier.py`
(class `BERTClassifier`): construction, the `forward` pass with its three
classification strategies, and the `output_size` property.

Tensors are modelled dynamically, as a shape list together with row-major
data, which mirrors how the tensor library treats `view`, `flatten`,
`squeeze` and `pad`.  Real-valued entries are modelled as rationals.
The encoder is an external collaborator (its module is out of scope in the
source file); it is a function field producing the per-token outputs and
the pooled output.  Fallible steps return `Except String`.
-/

namespace TexarBert

/-- A dynamically shaped tensor: a shape and row-major data. -/
structure Tensor (α : Type) where
  shape : List Nat
  data : List α
deriving DecidableEq, Repr

/-- Size of the trailing dimension (class axis for logits). -/
def lastDim (t : Tensor α) : Nat := t.shape.getLastD 1

/-- Row-major data split into groups of `k` consecutive entries.
The fuel argument of the worker only serves structural recursion; it is
never exhausted when it starts at the length of the list. -/
def tchunks (k : Nat) (l : List α) : List (List α) :=
  go l.length l
where
  go : Nat → List α → List (List α)
  | _, [] => []
  | 0, _ :: _ => []
  | fuel + 1, x :: xs =>
    if k = 0 then [] else (x :: xs).take k :: go fuel ((x :: xs).drop k)

/-- Dot product of two coefficient lists. -/
def dot (w x : List ℚ) : ℚ := (List.zipWith (fun a b => a * b) w x).sum

/-- Model of the framework dense layer `nn.Linear`. -/
structure Linear where
  in_features : Nat
  out_features : Nat
  weight : List (List ℚ)
  bias : List ℚ

/-- Payload of a dense layer applied along the trailing axis. -/
def linearOut (L : Linear) (t : Tensor ℚ) : Tensor ℚ :=
  { shape := t.shape.dropLast ++ [L.out_features],
    data := ((tchunks (lastDim t) t.data).map
      (fun x => List.zipWith (fun w b => dot w x + b) L.weight L.bias)).flatten }

/-- Dense layer along the trailing axis; the tensor library rejects a
trailing dimension that differs from `in_features`. -/
def linearT (L : Linear) (t : Tensor ℚ) : Except String (Tensor ℚ) :=
  if lastDim t = L.in_features then .ok (linearOut L t)
  else .error "mat1 and mat2 shapes cannot be multiplied"

/-- Elementwise dropout over row-major data, position `i` onwards. -/
def dropData (p : ℚ) (keep : Nat → Bool) : Nat → List ℚ → List ℚ
  | _, [] => []
  | i, v :: vs =>
    (if keep i then v / (1 - p) else 0) :: dropData p keep (i + 1) vs

/-- Model of `nn.Dropout`: in training mode each position is either kept
and rescaled by 1/(1-p) or zeroed, as decided by the sampled mask `keep`;
in evaluation mode it is the identity. -/
def dropoutT (training : Bool) (p : ℚ) (keep : Nat → Bool) (t : Tensor ℚ) :
    Tensor ℚ :=
  if training then
    { shape := t.shape, data := dropData p keep 0 t.data }
  else t

/-- Model of `torch.squeeze(t, -1)`: drop the trailing dimension exactly
when it has size 1, otherwise return the tensor unchanged. -/
def squeezeLast (t : Tensor α) : Tensor α :=
  match t.shape.getLast? with
  | some 1 => { shape := t.shape.dropLast, data := t.data }
  | _ => t

/-- Model of `torch.flatten`. -/
def flattenT (t : Tensor α) : Tensor α :=
  { shape := [t.shape.prod], data := t.data }

/-- Model of `(logits > 0).long()`. -/
def gtZero (t : Tensor ℚ) : Tensor Int :=
  { shape := t.shape, data := t.data.map (fun v => if 0 < v then 1 else 0) }

/-- Index of the first maximal entry, the semantics of `torch.argmax`. -/
def argmaxIdx : List ℚ → Nat
  | [] => 0
  | x :: xs =>
    if xs ≠ [] ∧ x < xs.getD (argmaxIdx xs) 0 then argmaxIdx xs + 1 else 0

/-- Model of `torch.argmax(t, dim=-1)`. -/
def argmaxLast (t : Tensor ℚ) : Tensor Int :=
  { shape := t.shape.dropLast,
    data := (tchunks (lastDim t) t.data).map (fun r => ((argmaxIdx r : Nat) : Int)) }

/-- Model of `F.pad(t, [0, 0, 0, diff, 0, 0])` on a `[B, T, F]` tensor:
append `diff` zero time steps at the end of the time axis; a negative
`diff` removes time steps from the end instead. -/
def padTime (diff : Int) (t : Tensor ℚ) : Tensor ℚ :=
  match t.shape with
  | [b, tt, f] =>
    let newT : Nat := ((tt : Int) + diff).toNat
    let batches := tchunks (tt * f) t.data
    let padded :=
      if 0 ≤ diff then
        batches.map (fun bd => bd ++ List.replicate (diff.toNat * f) (0 : ℚ))
      else
        batches.map (fun bd => bd.take (newT * f))
    { shape := [b, newT, f], data := padded.flatten }
  | _ => t

/-- Model of `t.view(-1, d)`. -/
def view2 (t : Tensor α) (d : Nat) : Except String (Tensor α) :=
  if 0 < d ∧ t.shape.prod % d = 0 then
    .ok { shape := [t.shape.prod / d, d], data := t.data }
  else .error "shape is invalid for input of size"

/-- The hyperparameters of `BERTClassifier` that its code reads.
`encoder_dim` is the `encoder.dim` entry of the merged hyperparameters. -/
structure HParams where
  num_classes : Int
  clas_strategy : String
  max_seq_length : Option Nat
  dropout : ℚ
  encoder_dim : Nat

/-- The external `BERTEncoder` collaborator: its callable producing
`(enc_outputs, pooled_output)` and its `output_size` feature dimension. -/
structure Encoder where
  output_size : Nat
  encode : Tensor Nat → Option (Tensor Nat) → Option (Tensor Nat) →
    Tensor ℚ × Tensor ℚ

/-- The flag `self.is_binary` as computed at the end of `__init__`. -/
def isBinaryOf (hp : HParams) : Bool :=
  decide (hp.num_classes = 1) ||
    (decide (hp.num_classes ≤ 0) && decide (hp.encoder_dim = 1))

/-- The state a constructed `BERTClassifier` holds. -/
structure BERTClassifier where
  hparams : HParams
  encoder : Encoder
  num_classes : Int
  logits_layer : Option Linear
  is_binary : Bool

/-- `BERTClassifier.__init__`: the logits layer is built only when
`num_classes > 0`; with strategy `all_time` its input dimension is
`encoder.output_size * max_seq_length`, which is a type error when
`max_seq_length` is unset.  `mkLinear` stands for the framework layer
constructor with its sampled initial weights. -/
def init (mkLinear : Nat → Nat → Linear) (encoder : Encoder) (hp : HParams) :
    Except String BERTClassifier :=
  if hp.num_classes ≤ 0 then
    .ok { hparams := hp, encoder := encoder, num_classes := hp.num_classes,
          logits_layer := none, is_binary := isBinaryOf hp }
  else if hp.clas_strategy = "all_time" then
    match hp.max_seq_length with
    | none => .error "unsupported operand type for *: int and NoneType"
    | some m =>
      .ok { hparams := hp, encoder := encoder, num_classes := hp.num_classes,
            logits_layer := some (mkLinear (encoder.output_size * m)
              hp.num_classes.toNat),
            is_binary := isBinaryOf hp }
  else
    .ok { hparams := hp, encoder := encoder, num_classes := hp.num_classes,
          logits_layer := some (mkLinear encoder.output_size
            hp.num_classes.toNat),
          is_binary := isBinaryOf hp }

/-- The strategy dispatch of `forward` (the Compute logits block before the
optional projection): `time_wise` takes the per-token outputs, `cls_time`
the pooled output, `all_time` pads the per-token outputs to
`max_seq_length` time steps and flattens time and feature axes; any other
strategy raises the unknown-strategy error. -/
def stratLogits (c : BERTClassifier) (inputs : Tensor Nat)
    (enc_outputs pooled_output : Tensor ℚ) : Except String (Tensor ℚ) :=
  if c.hparams.clas_strategy = "time_wise" then .ok enc_outputs
  else if c.hparams.clas_strategy = "cls_time" then .ok pooled_output
  else if c.hparams.clas_strategy = "all_time" then
    match c.hparams.max_seq_length with
    | none => .error "unsupported operand type for -: NoneType and int"
    | some m =>
      let length_diff : Int := (m : Int) - (inputs.shape.getD 1 0 : Int)
      view2 (padTime length_diff enc_outputs) (c.encoder.output_size * m)
  else .error ("Unknown classification strategy: " ++ c.hparams.clas_strategy)

/-- The optional projection of `forward`: when a logits layer exists, apply
dropout and the dense layer to the selected representation. -/
def applyLayer (c : BERTClassifier) (training : Bool) (keep : Nat → Bool)
    (lg0 : Tensor ℚ) : Except String (Tensor ℚ) :=
  match c.logits_layer with
  | some L => linearT L (dropoutT training c.hparams.dropout keep lg0)
  | none => .ok lg0

/-- The Compute predictions block of `forward`, which reads only the
strategy string, the `is_binary` flag and the logits. -/
def computePreds (strategy : String) (isBin : Bool) (lg : Tensor ℚ) :
    Tensor ℚ × Tensor Int :=
  if strategy = "time_wise" then
    if isBin then
      let lg2 := squeezeLast lg
      (lg2, gtZero lg2)
    else (lg, argmaxLast lg)
  else
    if isBin then (flattenT lg, flattenT (gtZero lg))
    else (lg, flattenT (argmaxLast lg))

/-- The logits computation of `forward`: encoder call, strategy dispatch,
optional dropout and projection. -/
def computeLogits (c : BERTClassifier) (training : Bool) (keep : Nat → Bool)
    (inputs : Tensor Nat) (sequence_length : Option (Tensor Nat))
    (segment_ids : Option (Tensor Nat)) : Except String (Tensor ℚ) :=
  let encres := c.encoder.encode inputs sequence_length segment_ids
  match stratLogits c inputs encres.1 encres.2 with
  | .error e => .error e
  | .ok lg0 => applyLayer c training keep lg0

/-- `BERTClassifier.forward`: feeds the inputs through the encoder,
dispatches on the classification strategy, applies the optional dropout
and projection, and derives the predictions. -/
def forward (c : BERTClassifier) (training : Bool) (keep : Nat → Bool)
    (inputs : Tensor Nat) (sequence_length : Option (Tensor Nat))
    (segment_ids : Option (Tensor Nat)) :
    Except String (Tensor ℚ × Tensor Int) :=
  let encres := c.encoder.encode inputs sequence_length segment_ids
  match stratLogits c inputs encres.1 encres.2 with
  | .error e => .error e
  | .ok lg0 =>
    match applyLayer c training keep lg0 with
    | .error e => .error e
    | .ok lg =>
      if c.hparams.clas_strategy = "time_wise" then
        if c.is_binary then
          let lg2 := squeezeLast lg
          .ok (lg2, gtZero lg2)
        else .ok (lg, argmaxLast lg)
      else
        if c.is_binary then .ok (flattenT lg, flattenT (gtZero lg))
        else .ok (lg, flattenT (argmaxLast lg))

/-- `BERTClassifier.output_size`: raises when `num_classes < 1`; otherwise
the local `logit_dim` is assigned only inside the branches for the three
known strategies, so an unknown strategy leaves it unassigned and the
final read of it fails. -/
def output_size (hp : HParams) : Except String Int :=
  if hp.num_classes < 1 then
    .error "logit_dim cannot be defined if num_classes < 1"
  else
    let logit_dim : Option Int :=
      if hp.clas_strategy = "cls_time" ∨ hp.clas_strategy = "all_time" then
        if 1 < hp.num_classes then some hp.num_classes
        else if hp.num_classes = 1 then some 1
        else none
      else if hp.clas_strategy = "time_wise" then
        if 1 < hp.num_classes then some hp.num_classes
        else if hp.num_classes = 1 then some 1
        else none
      else none
    match logit_dim with
    | some d => .ok d
    | none => .error "local variable logit_dim referenced before assignment"

/-! Basic facts about the tensor operations. -/

theorem tchunks_go_irrel {α : Type} (k : Nat) (f1 : Nat) :
    ∀ (f2 : Nat) (l : List α), l.length ≤ f1 → l.length ≤ f2 →
      tchunks.go k f1 l = tchunks.go k f2 l := by
  induction f1 with
  | zero =>
    intro f2 l h1 h2
    cases l with
    | nil => cases f2 <;> rfl
    | cons x xs => simp at h1
  | succ n ih =>
    intro f2 l h1 h2
    cases l with
    | nil => cases f2 <;> rfl
    | cons x xs =>
      cases f2 with
      | zero => simp at h2
      | succ m =>
        show (if k = 0 then [] else _) = (if k = 0 then [] else _)
        by_cases hk : k = 0
        · rw [if_pos hk, if_pos hk]
        · rw [if_neg hk, if_neg hk]
          congr 1
          refine ih m _ ?_ ?_ <;>
            · simp only [List.length_drop, List.length_cons] at *
              omega

theorem tchunks_nil {α : Type} (k : Nat) : tchunks k ([] : List α) = [] := rfl

theorem tchunks_cons {α : Type} (k : Nat) (x : α) (xs : List α)
    (hk : k ≠ 0) :
    tchunks k (x :: xs) =
      (x :: xs).take k :: tchunks k ((x :: xs).drop k) := by
  show (if k = 0 then [] else _) = _
  rw [if_neg hk]
  congr 1
  exact tchunks_go_irrel k xs.length _ _
    (by simp only [List.length_drop, List.length_cons]; omega) (le_refl _)

theorem tchunks_append {α : Type} (k : Nat) (l1 l2 : List α)
    (hk : 0 < k) (h : l1.length = k) :
    tchunks k (l1 ++ l2) = l1 :: tchunks k l2 := by
  cases l1 with
  | nil => rw [List.length_nil] at h; omega
  | cons x xs =>
    rw [List.cons_append, tchunks_cons k _ _ (by omega), ← List.cons_append,
      ← h, List.take_left, List.drop_left]

theorem tchunks_flatten {α : Type} (k : Nat) (L : List (List α))
    (hk : 0 < k) (H : ∀ r ∈ L, r.length = k) :
    tchunks k L.flatten = L := by
  induction L with
  | nil => rfl
  | cons r L ih =>
    rw [List.flatten_cons, tchunks_append k r L.flatten hk
      (H r (List.mem_cons_self r L))]
    rw [ih (fun s hs => H s (List.mem_cons_of_mem r hs))]

theorem argmaxIdx_lt_length (l : List ℚ) (h : l ≠ []) :
    argmaxIdx l < l.length := by
  induction l with
  | nil => exact absurd rfl h
  | cons x xs ih =>
    rw [argmaxIdx]
    split
    · next hc =>
      have := ih hc.1
      simp only [List.length_cons]
      omega
    · simp only [List.length_cons]
      omega

theorem argmaxIdx_getD_le (l : List ℚ) (i : Nat) (hi : i < l.length) :
    l.getD i 0 ≤ l.getD (argmaxIdx l) 0 := by
  induction l generalizing i with
  | nil => simp at hi
  | cons x xs ih =>
    rw [argmaxIdx]
    split
    · next hc =>
      rw [show (x :: xs).getD (argmaxIdx xs + 1) 0 =
        xs.getD (argmaxIdx xs) 0 from rfl]
      cases i with
      | zero => exact le_of_lt hc.2
      | succ j =>
        have hj : j < xs.length := by
          simp only [List.length_cons] at hi; omega
        exact ih j hj
    · next hc =>
      rw [show (x :: xs).getD 0 0 = x from rfl]
      cases i with
      | zero => exact le_refl x
      | succ j =>
        have hj : j < xs.length := by
          simp only [List.length_cons] at hi; omega
        have hxs : xs ≠ [] := List.ne_nil_of_length_pos (by omega)
        push_neg at hc
        exact le_trans (ih j hj) (hc hxs)

theorem dropoutT_shape (tr : Bool) (p : ℚ) (k : Nat → Bool) (t : Tensor ℚ) :
    (dropoutT tr p k t).shape = t.shape := by
  unfold dropoutT
  split <;> rfl

theorem dropoutT_off (p : ℚ) (k : Nat → Bool) (t : Tensor ℚ) :
    dropoutT false p k t = t := rfl

theorem linearT_ok (L : Linear) (t : Tensor ℚ) (h : lastDim t = L.in_features) :
    linearT L t = .ok (linearOut L t) := by
  unfold linearT
  rw [if_pos h]

/-! Reductions of construction and of the strategy dispatch. -/

theorem init_pos_other (mkL : Nat → Nat → Linear) (e : Encoder)
    (hp : HParams) (hnc : 0 < hp.num_classes)
    (hs : hp.clas_strategy ≠ "all_time") :
    init mkL e hp = .ok
      { hparams := hp, encoder := e, num_classes := hp.num_classes,
        logits_layer := some (mkL e.output_size hp.num_classes.toNat),
        is_binary := isBinaryOf hp } := by
  unfold init
  rw [if_neg (by omega), if_neg hs]

theorem init_all_time_some (mkL : Nat → Nat → Linear) (e : Encoder)
    (hp : HParams) (m : Nat) (hnc : 0 < hp.num_classes)
    (hs : hp.clas_strategy = "all_time") (hm : hp.max_seq_length = some m) :
    init mkL e hp = .ok
      { hparams := hp, encoder := e, num_classes := hp.num_classes,
        logits_layer := some (mkL (e.output_size * m) hp.num_classes.toNat),
        is_binary := isBinaryOf hp } := by
  unfold init
  rw [if_neg (by omega), if_pos hs, hm]

theorem init_ok_fields (mkL : Nat → Nat → Linear) (e : Encoder)
    (hp : HParams) (c : BERTClassifier) (h : init mkL e hp = .ok c) :
    c.hparams = hp ∧ c.encoder = e ∧ c.num_classes = hp.num_classes ∧
      c.is_binary = isBinaryOf hp := by
  unfold init at h
  split at h
  · injection h with h2
    subst h2
    exact ⟨rfl, rfl, rfl, rfl⟩
  · split at h
    · split at h
      · simp at h
      · injection h with h2
        subst h2
        exact ⟨rfl, rfl, rfl, rfl⟩
    · injection h with h2
      subst h2
      exact ⟨rfl, rfl, rfl, rfl⟩

theorem stratLogits_time_wise (c : BERTClassifier) (i : Tensor Nat)
    (e p : Tensor ℚ) (h : c.hparams.clas_strategy = "time_wise") :
    stratLogits c i e p = .ok e := by
  unfold stratLogits
  rw [if_pos h]

theorem stratLogits_cls_time (c : BERTClassifier) (i : Tensor Nat)
    (e p : Tensor ℚ) (h : c.hparams.clas_strategy = "cls_time") :
    stratLogits c i e p = .ok p := by
  unfold stratLogits
  rw [if_neg (by rw [h]; decide), if_pos h]

theorem stratLogits_all_time (c : BERTClassifier) (i : Tensor Nat)
    (e p : Tensor ℚ) (m : Nat) (h : c.hparams.clas_strategy = "all_time")
    (hm : c.hparams.max_seq_length = some m) :
    stratLogits c i e p =
      view2 (padTime ((m : Int) - (i.shape.getD 1 0 : Int)) e)
        (c.encoder.output_size * m) := by
  unfold stratLogits
  rw [if_neg (by rw [h]; decide), if_neg (by rw [h]; decide), if_pos h, hm]

theorem stratLogits_unknown (c : BERTClassifier) (i : Tensor Nat)
    (e p : Tensor ℚ) (h1 : c.hparams.clas_strategy ≠ "time_wise")
    (h2 : c.hparams.clas_strategy ≠ "cls_time")
    (h3 : c.hparams.clas_strategy ≠ "all_time") :
    stratLogits c i e p =
      .error ("Unknown classification strategy: " ++
        c.hparams.clas_strategy) := by
  unfold stratLogits
  rw [if_neg h1, if_neg h2, if_neg h3]

/-- The prediction stage of `forward` depends on the classifier state only
through the strategy string and the `is_binary` flag. -/
theorem forward_factor (c : BERTClassifier) (tr : Bool) (k : Nat → Bool)
    (i : Tensor Nat) (sl si : Option (Tensor Nat)) :
    forward c tr k i sl si =
      Except.map (computePreds c.hparams.clas_strategy c.is_binary)
        (computeLogits c tr k i sl si) := by
  simp only [forward, computeLogits]
  cases stratLogits c i (c.encoder.encode i sl si).1
      (c.encoder.encode i sl si).2 with
  | error e => rfl
  | ok lg0 =>
    dsimp only
    cases applyLayer c tr k lg0 with
    | error e => rfl
    | ok lg =>
      by_cases hs : c.hparams.clas_strategy = "time_wise" <;>
        by_cases hb : c.is_binary = true <;>
          simp [computePreds, hs, hb, Except.map]

/-! Branch reductions used by the claim proofs. -/

theorem computeLogits_ok (c : BERTClassifier) (tr : Bool) (keep : Nat → Bool)
    (inputs : Tensor Nat) (sl si : Option (Tensor Nat)) (lg0 : Tensor ℚ)
    (L : Linear)
    (hs : stratLogits c inputs (c.encoder.encode inputs sl si).1
      (c.encoder.encode inputs sl si).2 = .ok lg0)
    (hlay : c.logits_layer = some L)
    (hdim : lastDim (dropoutT tr c.hparams.dropout keep lg0) = L.in_features) :
    computeLogits c tr keep inputs sl si =
      .ok (linearOut L (dropoutT tr c.hparams.dropout keep lg0)) := by
  simp only [computeLogits]
  rw [hs]
  dsimp only
  simp only [applyLayer, hlay]
  exact linearT_ok L _ hdim

theorem forward_ok_of (c : BERTClassifier) (tr : Bool) (keep : Nat → Bool)
    (inputs : Tensor Nat) (sl si : Option (Tensor Nat)) (lg0 : Tensor ℚ)
    (L : Linear)
    (hs : stratLogits c inputs (c.encoder.encode inputs sl si).1
      (c.encoder.encode inputs sl si).2 = .ok lg0)
    (hlay : c.logits_layer = some L)
    (hdim : lastDim (dropoutT tr c.hparams.dropout keep lg0) = L.in_features) :
    forward c tr keep inputs sl si =
      .ok (computePreds c.hparams.clas_strategy c.is_binary
        (linearOut L (dropoutT tr c.hparams.dropout keep lg0))) := by
  rw [forward_factor, computeLogits_ok c tr keep inputs sl si lg0 L hs hlay hdim]
  rfl

theorem computePreds_multi_seq (s : String) (lg : Tensor ℚ)
    (hs : s ≠ "time_wise") :
    computePreds s false lg = (lg, flattenT (argmaxLast lg)) := by
  unfold computePreds
  rw [if_neg hs]
  rfl

theorem computePreds_bin_seq (s : String) (lg : Tensor ℚ)
    (hs : s ≠ "time_wise") :
    computePreds s true lg = (flattenT lg, flattenT (gtZero lg)) := by
  unfold computePreds
  rw [if_neg hs]
  rfl

theorem computePreds_multi_tw (lg : Tensor ℚ) :
    computePreds "time_wise" false lg = (lg, argmaxLast lg) := by
  unfold computePreds
  rw [if_pos rfl]
  rfl

theorem computePreds_bin_tw (lg : Tensor ℚ) :
    computePreds "time_wise" true lg =
      (squeezeLast lg, gtZero (squeezeLast lg)) := by
  unfold computePreds
  rw [if_pos rfl]
  rfl

theorem view2_ok {α : Type} (t : Tensor α) (d : Nat) (hd : 0 < d)
    (hmod : t.shape.prod % d = 0) :
    view2 t d = .ok { shape := [t.shape.prod / d, d], data := t.data } := by
  unfold view2
  rw [if_pos ⟨hd, hmod⟩]

theorem padTime_shape (diff : Int) (t : Tensor ℚ) (B T F : Nat)
    (h : t.shape = [B, T, F]) :
    (padTime diff t).shape = [B, ((T : Int) + diff).toNat, F] := by
  unfold padTime
  rw [h]

theorem linearOut_shape (L : Linear) (t : Tensor ℚ) :
    (linearOut L t).shape = t.shape.dropLast ++ [L.out_features] := rfl

theorem argmaxLast_shape (t : Tensor ℚ) :
    (argmaxLast t).shape = t.shape.dropLast := rfl

theorem flattenT_shape {α : Type} (t : Tensor α) :
    (flattenT t).shape = [t.shape.prod] := rfl

theorem gtZero_shape (t : Tensor ℚ) : (gtZero t).shape = t.shape := rfl

theorem linearOut_chunks (L : Linear) (t : Tensor ℚ) (n : Nat)
    (hn : 0 < n) (hw : L.weight.length = n) (hb : L.bias.length = n) :
    tchunks n (linearOut L t).data =
      (tchunks (lastDim t) t.data).map
        (fun x => List.zipWith (fun w b => dot w x + b) L.weight L.bias) := by
  unfold linearOut
  refine tchunks_flatten n _ hn ?_
  intro r hr
  obtain ⟨x, hx, rfl⟩ := List.mem_map.mp hr
  rw [List.length_zipWith, hw, hb, Nat.min_self]

theorem argmax_rows (n : Nat) (hn : 0 < n) (rows : List (List ℚ))
    (H : ∀ r ∈ rows, r.length = n) :
    ∀ r ∈ rows, r.length = n ∧ argmaxIdx r < r.length ∧
      ∀ j, j < r.length → r.getD j 0 ≤ r.getD (argmaxIdx r) 0 := by
  intro r hr
  refine ⟨H r hr, argmaxIdx_lt_length r ?_,
    fun j hj => argmaxIdx_getD_le r j hj⟩
  exact List.ne_nil_of_length_pos (by rw [H r hr]; omega)

/-- Sequence-level (non time_wise) multiclass forward result: logits stay
two-dimensional and predictions are the flattened per-row argmax. -/
theorem seq_multi (c : BERTClassifier) (tr : Bool) (keep : Nat → Bool)
    (inputs : Tensor Nat) (sl si : Option (Tensor Nat)) (lg0 : Tensor ℚ)
    (L : Linear) (B D C : Nat)
    (hs2 : stratLogits c inputs (c.encoder.encode inputs sl si).1
      (c.encoder.encode inputs sl si).2 = .ok lg0)
    (hlay : c.logits_layer = some L)
    (hsh : lg0.shape = [B, D])
    (hin : L.in_features = D) (hout : L.out_features = C)
    (hw : L.weight.length = C) (hb : L.bias.length = C) (hC : 0 < C)
    (hnt : c.hparams.clas_strategy ≠ "time_wise")
    (hbin : c.is_binary = false) :
    ∃ lg pr, forward c tr keep inputs sl si = .ok (lg, pr) ∧
      lg.shape = [B, C] ∧ pr.shape = [B] ∧
      pr.data = (tchunks C lg.data).map
        (fun r => ((argmaxIdx r : Nat) : Int)) ∧
      ∀ r ∈ tchunks C lg.data, ∀ j, j < r.length →
        r.getD j 0 ≤ r.getD (argmaxIdx r) 0 := by
  have hdim : lastDim (dropoutT tr c.hparams.dropout keep lg0) =
      L.in_features := by
    rw [hin]
    show (dropoutT tr c.hparams.dropout keep lg0).shape.getLastD 1 = D
    rw [dropoutT_shape, hsh]
    rfl
  have hfwd := forward_ok_of c tr keep inputs sl si lg0 L hs2 hlay hdim
  rw [hbin, computePreds_multi_seq _ _ hnt] at hfwd
  have hld : lastDim (linearOut L (dropoutT tr c.hparams.dropout keep lg0)) =
      C := by
    show (linearOut _ _).shape.getLastD 1 = _
    rw [linearOut_shape, hout]
    exact List.getLastD_concat _ _ _
  refine ⟨_, _, hfwd, ?_, ?_, ?_, ?_⟩
  · rw [linearOut_shape, dropoutT_shape, hsh, hout]
    rfl
  · rw [flattenT_shape, argmaxLast_shape, linearOut_shape, dropoutT_shape,
      hsh, hout, show ([B, D] : List Nat).dropLast = [B] from rfl,
      List.dropLast_concat]
    simp
  · show (tchunks (lastDim _) _).map _ = _
    rw [hld]
  · rw [linearOut_chunks _ _ _ hC hw hb]
    intro r hr
    obtain ⟨x, hx, rfl⟩ := List.mem_map.mp hr
    intro j hj
    exact argmaxIdx_getD_le _ j hj

/-- Reduction of the all_time strategy dispatch: the per-token outputs are
padded (or truncated) to max_seq_length time steps and reshaped into
[B, F * max_seq_length]. -/
theorem all_time_strat (c : BERTClassifier) (inputs : Tensor Nat)
    (sl si : Option (Tensor Nat)) (enc : Encoder) (hp : HParams)
    (encT : Tensor ℚ) (B T F m : Nat)
    (hcp : c.hparams = hp) (hce : c.encoder = enc)
    (hs : hp.clas_strategy = "all_time") (hm : hp.max_seq_length = some m)
    (henc1 : (c.encoder.encode inputs sl si).1 = encT)
    (hshape3 : encT.shape = [B, T, F]) (hT : inputs.shape.getD 1 0 = T)
    (hF : enc.output_size = F) (hFpos : 0 < F) (hm0 : 0 < m) :
    stratLogits c inputs (c.encoder.encode inputs sl si).1
      (c.encoder.encode inputs sl si).2 =
      .ok { shape := [B, F * m],
            data := (padTime ((m : Int) - (T : Int)) encT).data } := by
  rw [stratLogits_all_time c inputs _ _ m (by rw [hcp]; exact hs)
    (by rw [hcp]; exact hm), henc1, hce, hF, hT]
  have hps : (padTime ((m : Int) - (T : Int)) encT).shape = [B, m, F] := by
    rw [padTime_shape _ _ B T F hshape3,
      show ((T : Int) + ((m : Int) - (T : Int))).toNat = m from by omega]
  have hd : 0 < F * m := Nat.mul_pos hFpos hm0
  have hprod : (padTime ((m : Int) - (T : Int)) encT).shape.prod =
      F * m * B := by
    rw [hps]
    simp only [List.prod_cons, List.prod_nil, Nat.mul_one]
    ring
  rw [view2_ok _ _ hd (by rw [hprod]; exact Nat.mul_mod_right _ _), hprod,
    Nat.mul_div_cancel_left B hd]

/-! Concrete fixtures used by witnesses and counterexamples. -/

/-- A concrete dense-layer constructor with deterministic weights. -/
def mkL1 : Nat → Nat → Linear := fun d n =>
  { in_features := d, out_features := n,
    weight := List.replicate n ((List.range d).map (fun i => (i + 1 : ℚ))),
    bias := List.replicate n 0 }

/-- A concrete encoder with batch 1, one time step and feature width 2. -/
def encA : Encoder :=
  { output_size := 2,
    encode := fun _ _ _ =>
      ({ shape := [1, 1, 2], data := [(1 : ℚ), 2] },
       { shape := [1, 2], data := [(1 : ℚ), 2] }) }

/-- A multiclass configuration with the default strategy. -/
def hpA : HParams :=
  { num_classes := 2, clas_strategy := "cls_time", max_seq_length := none,
    dropout := 1 / 10, encoder_dim := 2 }

/-- A one-token input batch. -/
def inpA : Tensor Nat := { shape := [1, 1], data := [5] }

/-- A dropout mask keeping every position. -/
def keepAll : Nat → Bool := fun _ => true

/-- A dropout mask zeroing every position. -/
def keepNone : Nat → Bool := fun _ => false

/-- The classifier built from `hpA`. -/
def cA : BERTClassifier :=
  { hparams := hpA, encoder := encA, num_classes := 2,
    logits_layer := some (mkL1 2 2), is_binary := false }

/-- A binary configuration, `num_classes = 1`. -/
def hpBin : HParams := { hpA with num_classes := 1 }

/-- The classifier built from `hpBin`. -/
def cBin : BERTClassifier :=
  { hparams := hpBin, encoder := encA, num_classes := 1,
    logits_layer := some (mkL1 2 1), is_binary := true }

/-- An unknown-strategy configuration. -/
def hpFoo : HParams := { hpA with clas_strategy := "foo" }

/-- A five-class configuration. -/
def hpFive : HParams := { hpA with num_classes := 5 }

/-- An all_time configuration without max_seq_length. -/
def hpATn : HParams := { hpA with clas_strategy := "all_time" }

/-- An all_time configuration without max_seq_length and without a
projection layer. -/
def hpAT0 : HParams :=
  { hpA with clas_strategy := "all_time", num_classes := 0 }

/-- The pooled output produced by `encA`. -/
def poolA : Tensor ℚ := { shape := [1, 2], data := [1, 2] }

/-! The claims. -/

/-- C5 counterexample: with fixed configuration and fixed weights, two
training-mode forward calls on identical inputs (token ids, sequence
lengths, segment ids) but different sampled dropout masks return
different results, so forward calls are not bit-identical as stated. -/
theorem claim_C5_cex :
    init mkL1 encA hpBin = .ok cBin ∧
    forward cBin true keepAll inpA none none ≠
      forward cBin true keepNone inpA none none := by
  refine ⟨rfl, ?_⟩
  have h1 : forward cBin true keepAll inpA none none =
      .ok ({ shape := [1], data := [50 / 9] }, { shape := [1], data := [1] }) := by
    rw [forward_ok_of cBin true keepAll inpA none none poolA (mkL1 2 1)
      rfl rfl rfl]
    norm_num [computePreds, flattenT, gtZero, linearOut, dropoutT, dropData,
      dot, tchunks, tchunks.go, lastDim, mkL1, keepAll, cBin, hpBin, hpA,
      poolA, List.range, List.range.loop]
    exact fun hs => absurd hs (by decide)
  have h2 : forward cBin true keepNone inpA none none =
      .ok ({ shape := [1], data := [0] }, { shape := [1], data := [0] }) := by
    rw [forward_ok_of cBin true keepNone inpA none none poolA (mkL1 2 1)
      rfl rfl rfl]
    norm_num [computePreds, flattenT, gtZero, linearOut, dropoutT, dropData,
      dot, tchunks, tchunks.go, lastDim, mkL1, keepNone, cBin, hpBin, hpA,
      poolA, List.range, List.range.loop]
    exact fun hs => absurd hs (by decide)
  rw [h1, h2]
  intro h
  simp only [Except.ok.injEq, Prod.mk.injEq, Tensor.mk.injEq,
    List.cons.injEq] at h
  norm_num at h

/-- C5 amended: with the dropout stage inactive (evaluation mode), the
result of forward does not depend on the sampled dropout mask, so two
calls on identical inputs with fixed weights yield identical logits and
predictions; in training mode the per-call dropout mask can change them. -/
theorem claim_C5 (c : BERTClassifier) (k1 k2 : Nat → Bool)
    (inputs : Tensor Nat) (sl si : Option (Tensor Nat)) :
    forward c false k1 inputs sl si = forward c false k2 inputs sl si := by
  simp only [forward, applyLayer, dropoutT_off]

/-- C6: for any strategy string outside the three known ones, construction
succeeds, and every forward call fails with the unknown-strategy error at
the strategy dispatch, producing no output. -/
theorem claim_C6 (mkL : Nat → Nat → Linear) (enc : Encoder) (hp : HParams)
    (tr : Bool) (keep : Nat → Bool) (inputs : Tensor Nat)
    (sl si : Option (Tensor Nat))
    (h1 : hp.clas_strategy ≠ "time_wise")
    (h2 : hp.clas_strategy ≠ "cls_time")
    (h3 : hp.clas_strategy ≠ "all_time") :
    ∃ c, init mkL enc hp = .ok c ∧
      forward c tr keep inputs sl si =
        .error ("Unknown classification strategy: " ++ hp.clas_strategy) := by
  by_cases hnc : hp.num_classes ≤ 0
  · refine ⟨_, by unfold init; rw [if_pos hnc], ?_⟩
    simp only [forward]
    rw [stratLogits_unknown _ _ _ _ h1 h2 h3]
  · refine ⟨_, init_pos_other mkL enc hp (by omega) h3, ?_⟩
    simp only [forward]
    rw [stratLogits_unknown _ _ _ _ h1 h2 h3]

/-- C6 witness at the concrete strategy string foo. -/
theorem claim_C6_w :
    hpFoo.clas_strategy ≠ "time_wise" ∧ hpFoo.clas_strategy ≠ "cls_time" ∧
    hpFoo.clas_strategy ≠ "all_time" ∧
    (∃ c, init mkL1 encA hpFoo = .ok c ∧
      forward c false keepAll inpA none none =
        .error ("Unknown classification strategy: " ++ hpFoo.clas_strategy)) :=
  ⟨by decide, by decide, by decide,
   claim_C6 mkL1 encA hpFoo false keepAll inpA none none (by decide)
     (by decide) (by decide)⟩

/-- C7 counterexample: a configuration with strategy all_time, unset
max_seq_length and num_classes = 0 constructs successfully (no projection
layer is built), so construction does not fail for every such
configuration. -/
theorem claim_C7_cex :
    hpAT0.clas_strategy = "all_time" ∧ hpAT0.max_seq_length = none ∧
    init mkL1 encA hpAT0 =
      .ok { hparams := hpAT0, encoder := encA, num_classes := 0,
            logits_layer := none, is_binary := false } :=
  ⟨rfl, rfl, rfl⟩

/-- C7 amended: for every configuration with strategy all_time, unset
max_seq_length and positive num_classes (so a projection layer is built),
construction fails with the dimension-computation type error. -/
theorem claim_C7 (mkL : Nat → Nat → Linear) (enc : Encoder) (hp : HParams)
    (hs : hp.clas_strategy = "all_time") (hm : hp.max_seq_length = none)
    (hnc : 0 < hp.num_classes) :
    init mkL enc hp =
      .error "unsupported operand type for *: int and NoneType" := by
  unfold init
  rw [if_neg (by omega), if_pos hs, hm]

/-- C7 witness at a concrete all_time configuration without
max_seq_length. -/
theorem claim_C7_w :
    hpATn.clas_strategy = "all_time" ∧ hpATn.max_seq_length = none ∧
    (0 : Int) < hpATn.num_classes ∧
    init mkL1 encA hpATn =
      .error "unsupported operand type for *: int and NoneType" :=
  ⟨rfl, rfl, by decide, claim_C7 mkL1 encA hpATn rfl rfl (by decide)⟩

/-- C8: for each of the three known strategies alike, the output-size
query fails exactly when num_classes < 1; it returns num_classes when
num_classes exceeds 1 and returns 1 when num_classes equals 1. -/
theorem claim_C8 (hp : HParams)
    (hstrat : hp.clas_strategy = "cls_time" ∨ hp.clas_strategy = "all_time" ∨
      hp.clas_strategy = "time_wise") :
    ((∃ e, output_size hp = .error e) ↔ hp.num_classes < 1) ∧
    (1 < hp.num_classes → output_size hp = .ok hp.num_classes) ∧
    (hp.num_classes = 1 → output_size hp = .ok 1) := by
  rcases lt_trichotomy hp.num_classes 1 with hlt | heq | hgt
  · have hout : output_size hp =
        .error "logit_dim cannot be defined if num_classes < 1" := by
      simp only [output_size]
      rw [if_pos hlt]
    exact ⟨⟨fun _ => hlt, fun _ => ⟨_, hout⟩⟩,
      fun h => absurd h (by omega), fun h => absurd h (by omega)⟩
  · have hout : output_size hp = .ok 1 := by
      simp only [output_size]
      rw [if_neg (by omega)]
      rcases hstrat with h | h | h
      · rw [if_pos (Or.inl h), if_neg (by omega), if_pos heq]
      · rw [if_pos (Or.inr h), if_neg (by omega), if_pos heq]
      · rw [if_neg (by rw [h]; decide), if_pos h, if_neg (by omega),
          if_pos heq]
    refine ⟨⟨fun he => ?_, fun h => absurd h (by omega)⟩,
      fun h => absurd h (by omega), fun _ => hout⟩
    obtain ⟨e, he⟩ := he
    rw [hout] at he
    simp at he
  · have hout : output_size hp = .ok hp.num_classes := by
      simp only [output_size]
      rw [if_neg (by omega)]
      rcases hstrat with h | h | h
      · rw [if_pos (Or.inl h), if_pos hgt]
      · rw [if_pos (Or.inr h), if_pos hgt]
      · rw [if_neg (by rw [h]; decide), if_pos h, if_pos hgt]
    refine ⟨⟨fun he => ?_, fun h => absurd h (by omega)⟩,
      fun _ => hout, fun h => absurd h (by omega)⟩
    obtain ⟨e, he⟩ := he
    rw [hout] at he
    simp at he

/-- C8 witness at the concrete strategy cls_time with five classes. -/
theorem claim_C8_w :
    (hpFive.clas_strategy = "cls_time" ∨ hpFive.clas_strategy = "all_time" ∨
      hpFive.clas_strategy = "time_wise") ∧
    (((∃ e, output_size hpFive = .error e) ↔ hpFive.num_classes < 1) ∧
      (1 < hpFive.num_classes →
        output_size hpFive = .ok hpFive.num_classes) ∧
      (hpFive.num_classes = 1 → output_size hpFive = .ok 1)) :=
  ⟨Or.inl rfl, claim_C8 hpFive (Or.inl rfl)⟩

/-- C10: with num_classes at least 1 but a strategy outside the three
known ones, no branch assigns the result, and the output-size query fails
with the unassigned-local-variable error instead of returning a value. -/
theorem claim_C10 (hp : HParams)
    (h1 : hp.clas_strategy ≠ "cls_time") (h2 : hp.clas_strategy ≠ "all_time")
    (h3 : hp.clas_strategy ≠ "time_wise") (hnc : 1 ≤ hp.num_classes) :
    output_size hp =
      .error "local variable logit_dim referenced before assignment" := by
  simp only [output_size]
  rw [if_neg (by omega), if_neg (not_or.mpr ⟨h1, h2⟩), if_neg h3]

/-- C9: for every constructed instance, is_binary is true exactly when
num_classes equals 1, or num_classes is nonpositive and the encoder
feature dimension equals 1; the flag is fixed at construction (forward is
a pure function of the stored state and returns it unchanged), and the
prediction-derivation stage factors through computePreds, which receives
nothing from the classifier except the strategy string and the is_binary
flag, so the flag alone selects between the binary and multiclass
branches on every forward call. -/
theorem claim_C9 (mkL : Nat → Nat → Linear) (enc : Encoder) (hp : HParams)
    (c : BERTClassifier) (hinit : init mkL enc hp = .ok c) :
    c.is_binary = (decide (hp.num_classes = 1) ||
      (decide (hp.num_classes ≤ 0) && decide (hp.encoder_dim = 1))) ∧
    ∀ (tr : Bool) (keep : Nat → Bool) (inputs : Tensor Nat)
      (sl si : Option (Tensor Nat)),
      forward c tr keep inputs sl si =
        Except.map (computePreds c.hparams.clas_strategy c.is_binary)
          (computeLogits c tr keep inputs sl si) := by
  obtain ⟨h1, h2, h3, h4⟩ := init_ok_fields mkL enc hp c hinit
  exact ⟨by rw [h4]; rfl,
    fun tr keep i sl si => forward_factor c tr keep i sl si⟩

/-- C9 witness at the concrete configuration hpA. -/
theorem claim_C9_w :
    init mkL1 encA hpA = .ok cA ∧
    (cA.is_binary = (decide (hpA.num_classes = 1) ||
      (decide (hpA.num_classes ≤ 0) && decide (hpA.encoder_dim = 1))) ∧
    ∀ (tr : Bool) (keep : Nat → Bool) (inputs : Tensor Nat)
      (sl si : Option (Tensor Nat)),
      forward cA tr keep inputs sl si =
        Except.map (computePreds cA.hparams.clas_strategy cA.is_binary)
          (computeLogits cA tr keep inputs sl si)) :=
  ⟨rfl, claim_C9 mkL1 encA hpA cA rfl⟩

/-- C1: in multiclass mode (num_classes above 1), forward succeeds and the
returned predictions are, group by group along the class axis, the first
index of a maximal entry of the returned logits; under cls_time the
logits have shape [B, num_classes] and the predictions shape [B]; under
time_wise the logits have shape [B, T, num_classes] and the predictions
shape [B, T], the per-position argmax. -/
theorem claim_C1 (mkL : Nat → Nat → Linear) (enc : Encoder) (hp : HParams)
    (c : BERTClassifier) (tr : Bool) (keep : Nat → Bool)
    (inputs : Tensor Nat) (sl si : Option (Tensor Nat))
    (encT poolT : Tensor ℚ) (B T F : Nat)
    (hmk : ∀ d n, (mkL d n).in_features = d ∧ (mkL d n).out_features = n ∧
      (mkL d n).weight.length = n ∧ (mkL d n).bias.length = n)
    (hnc : 1 < hp.num_classes)
    (hstrat : hp.clas_strategy = "cls_time" ∨ hp.clas_strategy = "time_wise")
    (hinit : init mkL enc hp = .ok c)
    (henc : enc.encode inputs sl si = (encT, poolT))
    (hshape3 : encT.shape = [B, T, F]) (hshape2 : poolT.shape = [B, F])
    (hF : enc.output_size = F) :
    ∃ lg pr, forward c tr keep inputs sl si = .ok (lg, pr) ∧
      (hp.clas_strategy = "cls_time" →
        lg.shape = [B, hp.num_classes.toNat] ∧ pr.shape = [B]) ∧
      (hp.clas_strategy = "time_wise" →
        lg.shape = [B, T, hp.num_classes.toNat] ∧ pr.shape = [B, T]) ∧
      pr.data = (tchunks hp.num_classes.toNat lg.data).map
        (fun r => ((argmaxIdx r : Nat) : Int)) ∧
      (∀ r ∈ tchunks hp.num_classes.toNat lg.data,
        r.length = hp.num_classes.toNat ∧ argmaxIdx r < r.length ∧
        ∀ j, j < r.length → r.getD j 0 ≤ r.getD (argmaxIdx r) 0) := by
  have hat : hp.clas_strategy ≠ "all_time" := by
    rcases hstrat with h | h <;> rw [h] <;> decide
  rw [init_pos_other mkL enc hp (by omega) hat] at hinit
  injection hinit with hc
  have hcp : c.hparams = hp := by rw [← hc]
  have hce : c.encoder = enc := by rw [← hc]
  have hlay : c.logits_layer =
      some (mkL enc.output_size hp.num_classes.toNat) := by rw [← hc]
  have hbin : c.is_binary = false := by
    rw [← hc]
    show isBinaryOf hp = false
    have e1 : ¬ hp.num_classes = 1 := by omega
    have e2 : ¬ hp.num_classes ≤ 0 := by omega
    simp [isBinaryOf, e1, e2]
  obtain ⟨hLin, hLout, hLw, hLb⟩ := hmk enc.output_size hp.num_classes.toNat
  have hCpos : 0 < hp.num_classes.toNat := by omega
  rcases hstrat with hs | hs
  · -- strategy cls_time
    have henc2 : (c.encoder.encode inputs sl si).2 = poolT := by
      rw [hce, henc]
    have hs2 : stratLogits c inputs (c.encoder.encode inputs sl si).1
        (c.encoder.encode inputs sl si).2 = .ok poolT := by
      rw [stratLogits_cls_time c inputs _ _ (by rw [hcp]; exact hs), henc2]
    have hdim : lastDim (dropoutT tr c.hparams.dropout keep poolT) =
        (mkL enc.output_size hp.num_classes.toNat).in_features := by
      show (dropoutT tr c.hparams.dropout keep poolT).shape.getLastD 1 = _
      rw [dropoutT_shape, hshape2, hLin, hF]
      rfl
    have hfwd := forward_ok_of c tr keep inputs sl si poolT
      (mkL enc.output_size hp.num_classes.toNat) hs2 hlay hdim
    rw [hcp, hs, hbin, computePreds_multi_seq _ _ (by decide)] at hfwd
    have hld : lastDim (linearOut (mkL enc.output_size hp.num_classes.toNat)
        (dropoutT tr hp.dropout keep poolT)) = hp.num_classes.toNat := by
      show (linearOut _ _).shape.getLastD 1 = _
      rw [linearOut_shape, hLout]
      exact List.getLastD_concat _ _ _
    refine ⟨_, _, hfwd, fun _ => ⟨?_, ?_⟩,
      fun htw => absurd (hs ▸ htw) (by decide), ?_, ?_⟩
    · rw [linearOut_shape, dropoutT_shape, hshape2, hLout]
      rfl
    · rw [flattenT_shape, argmaxLast_shape, linearOut_shape, dropoutT_shape,
        hshape2, hLout, show ([B, F] : List Nat).dropLast = [B] from rfl,
        List.dropLast_concat]
      simp
    · show (tchunks (lastDim _) _).map _ = _
      rw [hld]
    · rw [linearOut_chunks _ _ _ hCpos hLw hLb]
      refine argmax_rows hp.num_classes.toNat hCpos _ ?_
      intro r hr
      obtain ⟨x, hx, rfl⟩ := List.mem_map.mp hr
      rw [List.length_zipWith, hLw, hLb, Nat.min_self]
  · -- strategy time_wise
    have henc1 : (c.encoder.encode inputs sl si).1 = encT := by
      rw [hce, henc]
    have hs2 : stratLogits c inputs (c.encoder.encode inputs sl si).1
        (c.encoder.encode inputs sl si).2 = .ok encT := by
      rw [stratLogits_time_wise c inputs _ _ (by rw [hcp]; exact hs), henc1]
    have hdim : lastDim (dropoutT tr c.hparams.dropout keep encT) =
        (mkL enc.output_size hp.num_classes.toNat).in_features := by
      show (dropoutT tr c.hparams.dropout keep encT).shape.getLastD 1 = _
      rw [dropoutT_shape, hshape3, hLin, hF]
      rfl
    have hfwd := forward_ok_of c tr keep inputs sl si encT
      (mkL enc.output_size hp.num_classes.toNat) hs2 hlay hdim
    rw [hcp, hs, hbin, computePreds_multi_tw] at hfwd
    have hld : lastDim (linearOut (mkL enc.output_size hp.num_classes.toNat)
        (dropoutT tr hp.dropout keep encT)) = hp.num_classes.toNat := by
      show (linearOut _ _).shape.getLastD 1 = _
      rw [linearOut_shape, hLout]
      exact List.getLastD_concat _ _ _
    refine ⟨_, _, hfwd, fun hcl => absurd (hs ▸ hcl) (by decide),
      fun _ => ⟨?_, ?_⟩, ?_, ?_⟩
    · rw [linearOut_shape, dropoutT_shape, hshape3, hLout]
      rfl
    · rw [argmaxLast_shape, linearOut_shape, dropoutT_shape, hshape3, hLout,
        show ([B, T, F] : List Nat).dropLast = [B, T] from rfl,
        List.dropLast_concat]
    · show (tchunks (lastDim _) _).map _ = _
      rw [hld]
    · rw [linearOut_chunks _ _ _ hCpos hLw hLb]
      refine argmax_rows hp.num_classes.toNat hCpos _ ?_
      intro r hr
      obtain ⟨x, hx, rfl⟩ := List.mem_map.mp hr
      rw [List.length_zipWith, hLw, hLb, Nat.min_self]

/-- C10 witness at the concrete strategy string foo with two classes. -/
theorem claim_C10_w :
    hpFoo.clas_strategy ≠ "cls_time" ∧ hpFoo.clas_strategy ≠ "all_time" ∧
    hpFoo.clas_strategy ≠ "time_wise" ∧ (1 : Int) ≤ hpFoo.num_classes ∧
    output_size hpFoo =
      .error "local variable logit_dim referenced before assignment" :=
  ⟨by decide, by decide, by decide, by decide,
   claim_C10 hpFoo (by decide) (by decide) (by decide) (by decide)⟩

/-- The per-token outputs produced by `encA`. -/
def encTA : Tensor ℚ := { shape := [1, 1, 2], data := [1, 2] }

/-- An all_time configuration with max_seq_length 1. -/
def hpAT : HParams :=
  { hpA with clas_strategy := "all_time", max_seq_length := some 1 }

/-- The classifier built from `hpAT` over `encA`. -/
def cAT : BERTClassifier :=
  { hparams := hpAT, encoder := encA, num_classes := 2,
    logits_layer := some (mkL1 2 2), is_binary := false }

/-- A concrete encoder with batch 1, two time steps and feature width 2. -/
def encB : Encoder :=
  { output_size := 2,
    encode := fun _ _ _ =>
      ({ shape := [1, 2, 2], data := [(1 : ℚ), 2, 3, 4] },
       { shape := [1, 2], data := [(1 : ℚ), 2] }) }

/-- A two-token input batch. -/
def inpB : Tensor Nat := { shape := [1, 2], data := [5, 6] }

/-- The classifier built from `hpAT` over `encB`. -/
def cATB : BERTClassifier :=
  { hparams := hpAT, encoder := encB, num_classes := 2,
    logits_layer := some (mkL1 2 2), is_binary := false }

/-- A time_wise multiclass configuration. -/
def hpTW : HParams := { hpA with clas_strategy := "time_wise" }

/-- The classifier built from `hpTW`. -/
def cTW : BERTClassifier :=
  { hparams := hpTW, encoder := encA, num_classes := 2,
    logits_layer := some (mkL1 2 2), is_binary := false }

/-- A time_wise binary configuration. -/
def hpTWb : HParams :=
  { hpA with clas_strategy := "time_wise", num_classes := 1 }

/-- The classifier built from `hpTWb`. -/
def cTWb : BERTClassifier :=
  { hparams := hpTWb, encoder := encA, num_classes := 1,
    logits_layer := some (mkL1 2 1), is_binary := true }

/-- C1 witness at the concrete cls_time configuration hpA. -/
theorem claim_C1_w :
    (1 : Int) < hpA.num_classes ∧ init mkL1 encA hpA = .ok cA ∧
    (∃ lg pr, forward cA false keepAll inpA none none = .ok (lg, pr) ∧
      (hpA.clas_strategy = "cls_time" →
        lg.shape = [1, hpA.num_classes.toNat] ∧ pr.shape = [1]) ∧
      (hpA.clas_strategy = "time_wise" →
        lg.shape = [1, 1, hpA.num_classes.toNat] ∧ pr.shape = [1, 1]) ∧
      pr.data = (tchunks hpA.num_classes.toNat lg.data).map
        (fun r => ((argmaxIdx r : Nat) : Int)) ∧
      (∀ r ∈ tchunks hpA.num_classes.toNat lg.data,
        r.length = hpA.num_classes.toNat ∧ argmaxIdx r < r.length ∧
        ∀ j, j < r.length → r.getD j 0 ≤ r.getD (argmaxIdx r) 0)) :=
  ⟨by decide, rfl,
   claim_C1 mkL1 encA hpA cA false keepAll inpA none none encTA poolA 1 1 2
     (fun d n => ⟨rfl, rfl, by simp [mkL1], by simp [mkL1]⟩)
     (by decide) (Or.inl rfl) rfl rfl rfl rfl rfl⟩

/-- C2: in binary mode (num_classes = 1), the returned predictions are 1
where the corresponding returned logit is positive and 0 otherwise,
elementwise; under cls_time the returned logits are flattened to shape
[B]; under time_wise the trailing singleton class dimension is squeezed
so logits and predictions both have shape [B, T]. -/
theorem claim_C2 (mkL : Nat → Nat → Linear) (enc : Encoder) (hp : HParams)
    (c : BERTClassifier) (tr : Bool) (keep : Nat → Bool)
    (inputs : Tensor Nat) (sl si : Option (Tensor Nat))
    (encT poolT : Tensor ℚ) (B T F : Nat)
    (hmk : ∀ d n, (mkL d n).in_features = d ∧ (mkL d n).out_features = n ∧
      (mkL d n).weight.length = n ∧ (mkL d n).bias.length = n)
    (hnc : hp.num_classes = 1)
    (hstrat : hp.clas_strategy = "cls_time" ∨ hp.clas_strategy = "time_wise")
    (hinit : init mkL enc hp = .ok c)
    (henc : enc.encode inputs sl si = (encT, poolT))
    (hshape3 : encT.shape = [B, T, F]) (hshape2 : poolT.shape = [B, F])
    (hF : enc.output_size = F) :
    ∃ lg pr, forward c tr keep inputs sl si = .ok (lg, pr) ∧
      pr.data = lg.data.map (fun v => if 0 < v then (1 : Int) else 0) ∧
      (hp.clas_strategy = "cls_time" → lg.shape = [B] ∧ pr.shape = [B]) ∧
      (hp.clas_strategy = "time_wise" →
        lg.shape = [B, T] ∧ pr.shape = [B, T]) := by
  have hat : hp.clas_strategy ≠ "all_time" := by
    rcases hstrat with h | h <;> rw [h] <;> decide
  rw [init_pos_other mkL enc hp (by omega) hat] at hinit
  injection hinit with hc
  have hcp : c.hparams = hp := by rw [← hc]
  have hce : c.encoder = enc := by rw [← hc]
  have hlay : c.logits_layer =
      some (mkL enc.output_size hp.num_classes.toNat) := by rw [← hc]
  have hbin : c.is_binary = true := by
    rw [← hc]
    show isBinaryOf hp = true
    simp [isBinaryOf, hnc]
  obtain ⟨hLin, hLout, hLw, hLb⟩ := hmk enc.output_size hp.num_classes.toNat
  have hLout1 : (mkL enc.output_size hp.num_classes.toNat).out_features =
      1 := by rw [hLout]; omega
  rcases hstrat with hs | hs
  · -- strategy cls_time
    have henc2 : (c.encoder.encode inputs sl si).2 = poolT := by
      rw [hce, henc]
    have hs2 : stratLogits c inputs (c.encoder.encode inputs sl si).1
        (c.encoder.encode inputs sl si).2 = .ok poolT := by
      rw [stratLogits_cls_time c inputs _ _ (by rw [hcp]; exact hs), henc2]
    have hdim : lastDim (dropoutT tr c.hparams.dropout keep poolT) =
        (mkL enc.output_size hp.num_classes.toNat).in_features := by
      show (dropoutT tr c.hparams.dropout keep poolT).shape.getLastD 1 = _
      rw [dropoutT_shape, hshape2, hLin, hF]
      rfl
    have hfwd := forward_ok_of c tr keep inputs sl si poolT
      (mkL enc.output_size hp.num_classes.toNat) hs2 hlay hdim
    rw [hcp, hs, hbin, computePreds_bin_seq _ _ (by decide)] at hfwd
    refine ⟨_, _, hfwd, rfl, fun _ => ⟨?_, ?_⟩,
      fun htw => absurd (hs ▸ htw) (by decide)⟩
    · rw [flattenT_shape, linearOut_shape, dropoutT_shape, hshape2, hLout1]
      simp
    · rw [flattenT_shape, gtZero_shape, linearOut_shape, dropoutT_shape,
        hshape2, hLout1]
      simp
  · -- strategy time_wise
    have henc1 : (c.encoder.encode inputs sl si).1 = encT := by
      rw [hce, henc]
    have hs2 : stratLogits c inputs (c.encoder.encode inputs sl si).1
        (c.encoder.encode inputs sl si).2 = .ok encT := by
      rw [stratLogits_time_wise c inputs _ _ (by rw [hcp]; exact hs), henc1]
    have hdim : lastDim (dropoutT tr c.hparams.dropout keep encT) =
        (mkL enc.output_size hp.num_classes.toNat).in_features := by
      show (dropoutT tr c.hparams.dropout keep encT).shape.getLastD 1 = _
      rw [dropoutT_shape, hshape3, hLin, hF]
      rfl
    have hfwd := forward_ok_of c tr keep inputs sl si encT
      (mkL enc.output_size hp.num_classes.toNat) hs2 hlay hdim
    rw [hcp, hs, hbin, computePreds_bin_tw] at hfwd
    have hsh1 : (linearOut (mkL enc.output_size hp.num_classes.toNat)
        (dropoutT tr hp.dropout keep encT)).shape = [B, T, 1] := by
      rw [linearOut_shape, dropoutT_shape, hshape3, hLout1]
      rfl
    have hsq : squeezeLast (linearOut
        (mkL enc.output_size hp.num_classes.toNat)
        (dropoutT tr hp.dropout keep encT)) =
        { shape := [B, T],
          data := (linearOut (mkL enc.output_size hp.num_classes.toNat)
            (dropoutT tr hp.dropout keep encT)).data } := by
      unfold squeezeLast
      rw [hsh1]
      rfl
    rw [hsq] at hfwd
    exact ⟨_, _, hfwd, rfl,
      fun hcl => absurd (hs ▸ hcl) (by decide), fun _ => ⟨rfl, rfl⟩⟩

/-- C2 witness at the concrete binary cls_time configuration hpBin. -/
theorem claim_C2_w :
    hpBin.num_classes = 1 ∧ init mkL1 encA hpBin = .ok cBin ∧
    (∃ lg pr, forward cBin false keepAll inpA none none = .ok (lg, pr) ∧
      pr.data = lg.data.map (fun v => if 0 < v then (1 : Int) else 0) ∧
      (hpBin.clas_strategy = "cls_time" →
        lg.shape = [1] ∧ pr.shape = [1]) ∧
      (hpBin.clas_strategy = "time_wise" →
        lg.shape = [1, 1] ∧ pr.shape = [1, 1])) :=
  ⟨rfl, rfl,
   claim_C2 mkL1 encA hpBin cBin false keepAll inpA none none encTA poolA
     1 1 2 (fun d n => ⟨rfl, rfl, by simp [mkL1], by simp [mkL1]⟩)
     rfl (Or.inl rfl) rfl rfl rfl rfl rfl⟩

/-- C3 counterexample: with strategy cls_time and num_classes = 2, forward
returns logits of shape [1, 2]: the logits are not flattened to a
one-dimensional array of length B = 1, contrary to the claim. -/
theorem claim_C3_cex :
    ∃ lg pr, forward cA false keepAll inpA none none = .ok (lg, pr) ∧
      lg.shape = [1, 2] ∧ lg.shape ≠ [1] := by
  have h := forward_ok_of cA false keepAll inpA none none poolA (mkL1 2 2)
    rfl rfl rfl
  rw [show cA.hparams.clas_strategy = "cls_time" from rfl,
    show cA.is_binary = false from rfl,
    computePreds_multi_seq _ _ (by decide)] at h
  exact ⟨_, _, h, rfl, by decide⟩

/-- C3 amended: with strategy cls_time or all_time in multiclass mode, the
prediction is the first index of a maximal logit along the class axis and
the predictions are flattened to a 1D array of length B, while the
returned logits are not flattened: they keep shape [B, num_classes]. -/
theorem claim_C3 (mkL : Nat → Nat → Linear) (enc : Encoder) (hp : HParams)
    (c : BERTClassifier) (tr : Bool) (keep : Nat → Bool)
    (inputs : Tensor Nat) (sl si : Option (Tensor Nat))
    (encT poolT : Tensor ℚ) (B T F m : Nat)
    (hmk : ∀ d n, (mkL d n).in_features = d ∧ (mkL d n).out_features = n ∧
      (mkL d n).weight.length = n ∧ (mkL d n).bias.length = n)
    (hnc : 1 < hp.num_classes)
    (hstrat : hp.clas_strategy = "cls_time" ∨ hp.clas_strategy = "all_time")
    (hinit : init mkL enc hp = .ok c)
    (henc : enc.encode inputs sl si = (encT, poolT))
    (hshape3 : encT.shape = [B, T, F]) (hshape2 : poolT.shape = [B, F])
    (hF : enc.output_size = F) (hFpos : 0 < F)
    (hall : hp.clas_strategy = "all_time" →
      hp.max_seq_length = some m ∧ inputs.shape.getD 1 0 = T ∧ T ≤ m ∧
        0 < m) :
    ∃ lg pr, forward c tr keep inputs sl si = .ok (lg, pr) ∧
      lg.shape = [B, hp.num_classes.toNat] ∧ pr.shape = [B] ∧
      pr.data = (tchunks hp.num_classes.toNat lg.data).map
        (fun r => ((argmaxIdx r : Nat) : Int)) ∧
      ∀ r ∈ tchunks hp.num_classes.toNat lg.data, ∀ j, j < r.length →
        r.getD j 0 ≤ r.getD (argmaxIdx r) 0 := by
  have hCpos : 0 < hp.num_classes.toNat := by omega
  rcases hstrat with hs | hs
  · -- strategy cls_time
    have hat : hp.clas_strategy ≠ "all_time" := by rw [hs]; decide
    rw [init_pos_other mkL enc hp (by omega) hat] at hinit
    injection hinit with hc
    have hcp : c.hparams = hp := by rw [← hc]
    have hce : c.encoder = enc := by rw [← hc]
    have hlay : c.logits_layer =
        some (mkL enc.output_size hp.num_classes.toNat) := by rw [← hc]
    have hbin : c.is_binary = false := by
      rw [← hc]
      show isBinaryOf hp = false
      have e1 : ¬ hp.num_classes = 1 := by omega
      have e2 : ¬ hp.num_classes ≤ 0 := by omega
      simp [isBinaryOf, e1, e2]
    obtain ⟨hLin, hLout, hLw, hLb⟩ := hmk enc.output_size
      hp.num_classes.toNat
    have henc2 : (c.encoder.encode inputs sl si).2 = poolT := by
      rw [hce, henc]
    have hs2 : stratLogits c inputs (c.encoder.encode inputs sl si).1
        (c.encoder.encode inputs sl si).2 = .ok poolT := by
      rw [stratLogits_cls_time c inputs _ _ (by rw [hcp]; exact hs), henc2]
    exact seq_multi c tr keep inputs sl si poolT _ B F
      hp.num_classes.toNat hs2 hlay hshape2 (by rw [hLin, hF]) hLout hLw
      hLb hCpos (by rw [hcp, hs]; decide) hbin
  · -- strategy all_time
    obtain ⟨hm, hT, hTm, hm0⟩ := hall hs
    rw [init_all_time_some mkL enc hp m (by omega) hs hm] at hinit
    injection hinit with hc
    have hcp : c.hparams = hp := by rw [← hc]
    have hce : c.encoder = enc := by rw [← hc]
    have hlay : c.logits_layer =
        some (mkL (enc.output_size * m) hp.num_classes.toNat) := by
      rw [← hc]
    have hbin : c.is_binary = false := by
      rw [← hc]
      show isBinaryOf hp = false
      have e1 : ¬ hp.num_classes = 1 := by omega
      have e2 : ¬ hp.num_classes ≤ 0 := by omega
      simp [isBinaryOf, e1, e2]
    obtain ⟨hLin, hLout, hLw, hLb⟩ := hmk (enc.output_size * m)
      hp.num_classes.toNat
    have henc1 : (c.encoder.encode inputs sl si).1 = encT := by
      rw [hce, henc]
    have hs2 := all_time_strat c inputs sl si enc hp encT B T F m hcp hce
      hs hm henc1 hshape3 hT hF hFpos hm0
    exact seq_multi c tr keep inputs sl si _
      (mkL (enc.output_size * m) hp.num_classes.toNat) B (F * m)
      hp.num_classes.toNat hs2 hlay rfl (by rw [hLin, hF]) hLout hLw hLb
      hCpos (by rw [hcp, hs]; decide) hbin

/-- C3 witness at the concrete all_time configuration hpAT. -/
theorem claim_C3_w :
    (1 : Int) < hpAT.num_classes ∧ init mkL1 encA hpAT = .ok cAT ∧
    (∃ lg pr, forward cAT false keepAll inpA none none = .ok (lg, pr) ∧
      lg.shape = [1, hpAT.num_classes.toNat] ∧ pr.shape = [1] ∧
      pr.data = (tchunks hpAT.num_classes.toNat lg.data).map
        (fun r => ((argmaxIdx r : Nat) : Int)) ∧
      ∀ r ∈ tchunks hpAT.num_classes.toNat lg.data, ∀ j, j < r.length →
        r.getD j 0 ≤ r.getD (argmaxIdx r) 0) :=
  ⟨by decide, rfl,
   claim_C3 mkL1 encA hpAT cAT false keepAll inpA none none encTA poolA
     1 1 2 1 (fun d n => ⟨rfl, rfl, by simp [mkL1], by simp [mkL1]⟩)
     (by decide) (Or.inr rfl) rfl rfl rfl rfl rfl (by decide)
     (fun _ => ⟨rfl, rfl, by decide, by decide⟩)⟩

/-- C4 counterexample: with strategy all_time, max_seq_length = 1 and an
input of T = 2 time steps (so the pad length is negative), the call does
not fail: forward returns a (logits, predictions) pair. -/
theorem claim_C4_cex :
    hpAT.clas_strategy = "all_time" ∧ hpAT.max_seq_length = some 1 ∧
    inpB.shape.getD 1 0 = 2 ∧ init mkL1 encB hpAT = .ok cATB ∧
    (∃ lg pr, forward cATB false keepAll inpB none none = .ok (lg, pr)) := by
  refine ⟨rfl, rfl, rfl, rfl, ?_⟩
  have hs2 := all_time_strat cATB inpB none none encB hpAT
    { shape := [1, 2, 2], data := [1, 2, 3, 4] } 1 2 2 1 rfl rfl rfl rfl
    rfl rfl rfl rfl (by decide) (by decide)
  obtain ⟨lg, pr, h1, h2, h3, h4, h5⟩ := seq_multi cATB false keepAll inpB
    none none _ (mkL1 2 2) 1 2 2 hs2 rfl rfl rfl rfl (by simp [mkL1])
    (by simp [mkL1]) (by decide) (by decide) rfl
  exact ⟨lg, pr, h1⟩

/-- C4 amended: with strategy all_time and an input whose time dimension T
exceeds max_seq_length (negative pad length), the call is not an error:
the padding step silently truncates the per-token outputs to the first
max_seq_length time steps, and forward returns a (logits, predictions)
pair of the usual sequence-level shapes. -/
theorem claim_C4 (mkL : Nat → Nat → Linear) (enc : Encoder) (hp : HParams)
    (c : BERTClassifier) (tr : Bool) (keep : Nat → Bool)
    (inputs : Tensor Nat) (sl si : Option (Tensor Nat))
    (encT poolT : Tensor ℚ) (B T F m : Nat)
    (hmk : ∀ d n, (mkL d n).in_features = d ∧ (mkL d n).out_features = n ∧
      (mkL d n).weight.length = n ∧ (mkL d n).bias.length = n)
    (hnc : 1 < hp.num_classes)
    (hs : hp.clas_strategy = "all_time") (hm : hp.max_seq_length = some m)
    (hinit : init mkL enc hp = .ok c)
    (henc : enc.encode inputs sl si = (encT, poolT))
    (hshape3 : encT.shape = [B, T, F]) (hT : inputs.shape.getD 1 0 = T)
    (hlt : m < T) (hF : enc.output_size = F) (hFpos : 0 < F)
    (hm0 : 0 < m) :
    padTime ((m : Int) - (T : Int)) encT =
      { shape := [B, m, F],
        data := ((tchunks (T * F) encT.data).map
          (fun bd => bd.take (m * F))).flatten } ∧
    ∃ lg pr, forward c tr keep inputs sl si = .ok (lg, pr) ∧
      lg.shape = [B, hp.num_classes.toNat] ∧ pr.shape = [B] := by
  constructor
  · unfold padTime
    rw [hshape3]
    dsimp only
    rw [if_neg (by omega),
      show ((T : Int) + ((m : Int) - (T : Int))).toNat = m from by omega]
  · rw [init_all_time_some mkL enc hp m (by omega) hs hm] at hinit
    injection hinit with hc
    have hcp : c.hparams = hp := by rw [← hc]
    have hce : c.encoder = enc := by rw [← hc]
    have hlay : c.logits_layer =
        some (mkL (enc.output_size * m) hp.num_classes.toNat) := by
      rw [← hc]
    have hbin : c.is_binary = false := by
      rw [← hc]
      show isBinaryOf hp = false
      have e1 : ¬ hp.num_classes = 1 := by omega
      have e2 : ¬ hp.num_classes ≤ 0 := by omega
      simp [isBinaryOf, e1, e2]
    obtain ⟨hLin, hLout, hLw, hLb⟩ := hmk (enc.output_size * m)
      hp.num_classes.toNat
    have henc1 : (c.encoder.encode inputs sl si).1 = encT := by
      rw [hce, henc]
    have hs2 := all_time_strat c inputs sl si enc hp encT B T F m hcp hce
      hs hm henc1 hshape3 hT hF hFpos hm0
    obtain ⟨lg, pr, h1, h2, h3, h4, h5⟩ := seq_multi c tr keep inputs sl si
      _ (mkL (enc.output_size * m) hp.num_classes.toNat) B (F * m)
      hp.num_classes.toNat hs2 hlay rfl (by rw [hLin, hF]) hLout hLw hLb
      (by omega) (by rw [hcp, hs]; decide) hbin
    exact ⟨lg, pr, h1, h2, h3⟩

/-- C4 witness at the concrete truncating all_time configuration. -/
theorem claim_C4_w :
    hpAT.clas_strategy = "all_time" ∧ hpAT.max_seq_length = some 1 ∧
    (1 : Nat) < 2 ∧ init mkL1 encB hpAT = .ok cATB ∧
    (padTime ((1 : Int) - (2 : Int))
        { shape := [1, 2, 2], data := [(1 : ℚ), 2, 3, 4] } =
      { shape := [1, 1, 2],
        data := ((tchunks (2 * 2)
          ({ shape := [1, 2, 2], data := [(1 : ℚ), 2, 3, 4] } :
            Tensor ℚ).data).map (fun bd => bd.take (1 * 2))).flatten } ∧
    ∃ lg pr, forward cATB false keepAll inpB none none = .ok (lg, pr) ∧
      lg.shape = [1, hpAT.num_classes.toNat] ∧ pr.shape = [1]) :=
  ⟨rfl, rfl, by decide, rfl,
   claim_C4 mkL1 encB hpAT cATB false keepAll inpB none none
     { shape := [1, 2, 2], data := [(1 : ℚ), 2, 3, 4] }
     { shape := [1, 2], data := [(1 : ℚ), 2] } 1 2 2 1
     (fun d n => ⟨rfl, rfl, by simp [mkL1], by simp [mkL1]⟩)
     (by decide) rfl rfl rfl rfl rfl rfl (by decide) rfl (by decide)
     (by decide)⟩

end TexarBert
